import Mathlib

/-
Verification of the qwen3_embed pipeline (src/build_src/qwen3_embed/src/main.rs).

Shallow embedding conventions:
* `f32` values are modelled as real numbers (exact arithmetic); the real-number
  model has no NaN or infinity, so "no NaN/Inf" claims are assessed as the
  absence of the division-by-zero that would produce them.
* Wall-clock `Instant` readings are modelled as natural-number nanosecond
  timestamps supplied by the environment; `Duration::as_millis` followed by the
  `as u64` cast is floor division by 10^6 followed by reduction mod 2^64.
* The `qwen3` module (`Qwen3TextEmbedding`) is not part of the sources under
  verification; its observable behaviour (model acquisition outcomes and the
  `embed` batch call) is abstracted as environment-supplied data, following the
  spec's description of the Model Acquirer and Embedding Engine.
-/

namespace Qwen3Embed

/-- An embedding vector: a list of (real-modelled) f32 values. -/
abbrev Vec := List ℝ

/-- One step of the accumulation loop in `cosine_sim` (main.rs lines 35-39):
the accumulator holds `(dot, na, nb)` and a pair `(x, y)` contributes
`x * y`, `x * x` and `y * y` respectively. -/
def simStep (acc : ℝ × ℝ × ℝ) (p : ℝ × ℝ) : ℝ × ℝ × ℝ :=
  (acc.1 + p.1 * p.2, acc.2.1 + p.1 * p.1, acc.2.2 + p.2 * p.2)

/-- Embedding of `cosine_sim` (main.rs lines 31-44).  The Rust loop
`for (x, y) in a.iter().zip(b.iter())` is a single left fold over `a.zip b`
(so a length mismatch silently truncates to the shorter slice, as `zip` does);
then `if na == 0.0 || nb == 0.0 { return 0.0 }` and otherwise
`dot / (na.sqrt() * nb.sqrt())`. -/
noncomputable def cosine_sim (a b : Vec) : ℝ :=
  let s := (a.zip b).foldl simStep (0, 0, 0)
  if s.2.1 = 0 ∨ s.2.2 = 0 then 0
  else s.1 / (Real.sqrt s.2.1 * Real.sqrt s.2.2)

/-- Spec-side dot product over the paired elements (independent pass). -/
def dotl (a b : Vec) : ℝ := ((a.zip b).map fun p => p.1 * p.2).sum

/-- Spec-side squared Euclidean norm of a vector (independent pass). -/
def normSq (a : Vec) : ℝ := (a.map fun x => x * x).sum

/-- The `na` accumulator of `cosine_sim`: squared norm of the part of `a`
paired by `zip`. -/
def naAcc (a b : Vec) : ℝ := ((a.zip b).map fun p => p.1 * p.1).sum

/-- The `nb` accumulator of `cosine_sim`: squared norm of the part of `b`
paired by `zip`. -/
def nbAcc (a b : Vec) : ℝ := ((a.zip b).map fun p => p.2 * p.2).sum

/-- Modelled from the spec: the `qwen3` module (`Qwen3TextEmbedding`) is not
among the sources under verification.  Per the spec's Embedding Engine
contract, a loaded model is characterised by its batch embedding behaviour:
a function from an ordered sequence of input strings to either an ordered
sequence of embedding vectors or an inference error. -/
structure Qwen3Model where
  embed : List String → Except String (List Vec)

/-- The parsed command-line arguments (struct `Args`, main.rs lines 10-29):
optional document text, optional query text, the cache-only flag, and the
optional cache-directory override. -/
structure Args where
  document : Option String
  query : Option String
  cache_only : Bool
  cache_dir : Option String

/-- The environment a single invocation of `real_main` runs in: the build
feature `hf-hub`, the filesystem answer to `cache_dir.exists()`, the
(spec-modelled) outcomes of `Qwen3TextEmbedding::from_local_cache` and
`Qwen3TextEmbedding::from_hf_cached`, and the eight `Instant` readings the
pipeline takes, as nanosecond timestamps `c1, c2, ..., c8` in program
order: `t0`, `t_model`, after model load, `t_embed`, after embed, `t_sim`,
after scoring, and the final `t0.elapsed()` reading. -/
structure Env where
  hfHub : Bool
  cacheExists : Bool
  localLoad : Except String Qwen3Model
  hfFetch : Except String Qwen3Model
  c1 : ℕ
  c2 : ℕ
  c3 : ℕ
  c4 : ℕ
  c5 : ℕ
  c6 : ℕ
  c7 : ℕ
  c8 : ℕ

/-- The four reported phase durations (the `timings_ms` object,
main.rs lines 158-163), whole milliseconds as natural numbers. -/
structure Timings where
  model_load : ℕ
  embed : ℕ
  similarity : ℕ
  total : ℕ

/-- The machine-readable output object (main.rs lines 156-164). -/
structure OutJson where
  cosine_similarity : ℝ
  timings : Timings

/-- How one invocation ends: `Ok(())` (with the printed JSON result when the
run reached the output step, `none` for the cache-only early exits),
`Err(...)` with the error message, or a Rust panic (out-of-bounds indexing
into `embeddings`). -/
inductive Outcome where
  | success (out : Option OutJson)
  | failure (msg : String)
  | panicked

/-- Whether an outcome is a successful (zero) process exit. -/
def Outcome.isSuccess : Outcome → Bool
  | .success _ => true
  | _ => false

/-- The observable result of one invocation: its outcome together with which
externally visible steps were executed.  `loadedLocal` and `fetchedRemote`
record whether `from_local_cache` resp. `from_hf_cached` was called,
`ranInference` whether `model.embed` was called, `cacheModified` whether any
step wrote into the cache directory (only `from_hf_cached` does), and
`embedBatch` the batch passed to `model.embed`, when one was. -/
structure RunResult where
  outcome : Outcome
  loadedLocal : Bool
  fetchedRemote : Bool
  ranInference : Bool
  cacheModified : Bool
  embedBatch : Option (List String)

/-- The similarity score of a run that printed a result. -/
def RunResult.score (r : RunResult) : Option ℝ :=
  match r.outcome with
  | .success (some o) => some o.cosine_similarity
  | _ => none

/-- `Duration::as_millis` on a nanosecond span, then the `as u64` cast
(main.rs lines 129, 146, 151, 153): floor division by 10^6, reduced mod 2^64. -/
def as_millis_u64 (ns : ℕ) : ℕ := ns / 1000000 % 2 ^ 64

/-- The effective cache directory (main.rs lines 62-66): the `--cache-dir`
override when given, else `qwen3_local_cache`. -/
def cacheDirOf (args : Args) : String :=
  match args.cache_dir with
  | some dir => dir
  | none => "qwen3_local_cache"

/-- The model-acquisition step of the non-cache-only path (main.rs lines
102-124): `from_local_cache` when the cache directory exists, else
`from_hf_cached` when the `hf-hub` feature is enabled, else the fail-fast
error naming the expected cache path.  Returns the acquisition result
together with which of the two loaders was called (local, fetched). -/
def acquire (args : Args) (env : Env) : Except String Qwen3Model × Bool × Bool :=
  if env.cacheExists then (env.localLoad, true, false)
  else if env.hfHub then (env.hfFetch, false, true)
  else
    (Except.error
      ("No cache found and hf-hub is disabled. Please provide the cache directory (e.g. `qwen3_local_cache`) or run with --cache-dir to point to an existing cache: "
        ++ cacheDirOf args),
     false, false)

/-- The part of `real_main` after a model is ready (main.rs lines 131-164):
late validation of `--document` and `--query`, the prefixed two-string batch,
the timed embed call, and the timed similarity on `embeddings[0]` and
`embeddings[1]` (fewer than two returned vectors panics on indexing).
Returns the outcome, whether `model.embed` ran, and the batch passed to it. -/
noncomputable def finishRun (args : Args) (env : Env) (model : Qwen3Model) :
    Outcome × Bool × Option (List String) :=
  match args.document with
  | none => (.failure "--document is required", false, none)
  | some document =>
    match args.query with
    | none => (.failure "--query is required", false, none)
    | some query =>
      let inputs := ["query: " ++ query, "passage: " ++ document]
      match model.embed inputs with
      | .error e => (.failure e, true, some inputs)
      | .ok (e0 :: e1 :: _) =>
        (.success (some
          { cosine_similarity := cosine_sim e0 e1,
            timings :=
              { model_load := as_millis_u64 (env.c3 - env.c2),
                embed := as_millis_u64 (env.c5 - env.c4),
                similarity := as_millis_u64 (env.c7 - env.c6),
                total := as_millis_u64 (env.c8 - env.c1) } }),
         true, some inputs)
      | .ok _ => (.panicked, true, some inputs)

/-- Embedding of `real_main` (main.rs lines 58-173) as a pure function from
the parsed arguments and the environment to the observable run result.
Control flow follows the source: the cache-only early exits (lines 69-97),
the timed model acquisition (`acquire`, lines 100-124), and the rest of the
pipeline (`finishRun`, lines 131-164). -/
noncomputable def real_main (args : Args) (env : Env) : RunResult :=
  if args.cache_only then
    if env.cacheExists then
      { outcome := .success none, loadedLocal := false, fetchedRemote := false,
        ranInference := false, cacheModified := false, embedBatch := none }
    else if env.hfHub then
      match env.hfFetch with
      | .ok _ =>
        { outcome := .success none, loadedLocal := false, fetchedRemote := true,
          ranInference := false, cacheModified := true, embedBatch := none }
      | .error e =>
        { outcome := .failure e, loadedLocal := false, fetchedRemote := true,
          ranInference := false, cacheModified := true, embedBatch := none }
    else
      { outcome := .failure
          "--cache-only requested but hf-hub feature is disabled; cannot populate cache in this build. Use --cache-dir to point to a cache directory.",
        loadedLocal := false, fetchedRemote := false, ranInference := false,
        cacheModified := false, embedBatch := none }
  else
    match acquire args env with
    | (.error e, ll, fr) =>
      { outcome := .failure e, loadedLocal := ll, fetchedRemote := fr,
        ranInference := false, cacheModified := fr, embedBatch := none }
    | (.ok model, ll, fr) =>
      let k := finishRun args env model
      { outcome := k.1, loadedLocal := ll, fetchedRemote := fr,
        ranInference := k.2.1, cacheModified := fr, embedBatch := k.2.2 }

/-- A concrete model whose `embed` returns the two unit vectors `[1]`, `[1]`
on any batch; used to instantiate theorems at concrete inputs. -/
def okModel : Qwen3Model := ⟨fun _ => .ok [[1], [1]]⟩

/-- A concrete environment with the given capability flags and acquisition
outcomes, and a fixed monotone clock (durations: model 2 ms, embed 5 ms,
similarity 2 ms, total 20 ms). -/
def envWith (ce hh : Bool) (ll hf : Except String Qwen3Model) : Env :=
  { hfHub := hh, cacheExists := ce, localLoad := ll, hfFetch := hf,
    c1 := 0, c2 := 1000000, c3 := 3000000, c4 := 4000000,
    c5 := 9000000, c6 := 10000000, c7 := 12000000, c8 := 20000000 }

/-- Concrete arguments for the end-to-end scenario of the spec. -/
def argsFull : Args :=
  { document := some "The cat sat on the mat.",
    query := some "Where is the cat?", cache_only := false, cache_dir := none }

/-- Concrete arguments with the document input absent. -/
def argsNoDoc : Args :=
  { document := none, query := some "Where is the cat?",
    cache_only := false, cache_dir := none }

/-- Concrete arguments for cache-only mode. -/
def argsCacheOnly : Args :=
  { document := none, query := none, cache_only := true, cache_dir := none }

/- ### Lemmas about the similarity scorer -/

lemma foldl_simStep (l : List (ℝ × ℝ)) (d x y : ℝ) :
    l.foldl simStep (d, x, y) =
      (d + (l.map fun p => p.1 * p.2).sum,
       x + (l.map fun p => p.1 * p.1).sum,
       y + (l.map fun p => p.2 * p.2).sum) := by
  induction l generalizing d x y with
  | nil => simp
  | cons p t ih => simp [simStep, ih, add_assoc]

/-- The single-pass accumulation of `cosine_sim`, written with the three
independent sums. -/
lemma cosine_sim_eq (a b : Vec) :
    cosine_sim a b =
      if naAcc a b = 0 ∨ nbAcc a b = 0 then 0
      else dotl a b / (Real.sqrt (naAcc a b) * Real.sqrt (nbAcc a b)) := by
  unfold cosine_sim dotl naAcc nbAcc
  rw [foldl_simStep]
  simp

lemma normSq_nonneg (a : Vec) : 0 ≤ normSq a := by
  refine List.sum_nonneg ?_
  intro x hx
  obtain ⟨y, _, rfl⟩ := List.mem_map.1 hx
  exact mul_self_nonneg y

lemma naAcc_nonneg (a b : Vec) : 0 ≤ naAcc a b := by
  refine List.sum_nonneg ?_
  intro x hx
  obtain ⟨y, _, rfl⟩ := List.mem_map.1 hx
  exact mul_self_nonneg y.1

lemma nbAcc_nonneg (a b : Vec) : 0 ≤ nbAcc a b := by
  refine List.sum_nonneg ?_
  intro x hx
  obtain ⟨y, _, rfl⟩ := List.mem_map.1 hx
  exact mul_self_nonneg y.2

lemma naAcc_le_normSq (a b : Vec) : naAcc a b ≤ normSq a := by
  induction a generalizing b with
  | nil => simp [naAcc, normSq]
  | cons x a ih =>
    cases b with
    | nil =>
      simpa [naAcc, normSq] using
        add_nonneg (mul_self_nonneg x) (normSq_nonneg a)
    | cons y b =>
      have := ih b
      simp only [naAcc, normSq, List.zip_cons_cons, List.map_cons,
        List.sum_cons] at *
      linarith

lemma nbAcc_le_normSq (a b : Vec) : nbAcc a b ≤ normSq b := by
  induction a generalizing b with
  | nil => simpa [nbAcc] using normSq_nonneg b
  | cons x a ih =>
    cases b with
    | nil => simp [nbAcc, normSq]
    | cons y b =>
      have := ih b
      simp only [nbAcc, normSq, List.zip_cons_cons, List.map_cons,
        List.sum_cons] at *
      linarith

lemma naAcc_eq_normSq (a b : Vec) (h : a.length = b.length) :
    naAcc a b = normSq a := by
  induction a generalizing b with
  | nil => simp [naAcc, normSq]
  | cons x a ih =>
    cases b with
    | nil => simp at h
    | cons y b =>
      simp only [List.length_cons, Nat.succ.injEq] at h
      simp [naAcc, normSq, List.zip_cons_cons] at *
      exact ih b h

lemma nbAcc_eq_normSq (a b : Vec) (h : a.length = b.length) :
    nbAcc a b = normSq b := by
  induction a generalizing b with
  | nil =>
    cases b with
    | nil => simp [nbAcc, normSq]
    | cons y b => simp at h
  | cons x a ih =>
    cases b with
    | nil => simp at h
    | cons y b =>
      simp only [List.length_cons, Nat.succ.injEq] at h
      simp [nbAcc, normSq, List.zip_cons_cons] at *
      exact ih b h

lemma dotl_comm (a b : Vec) : dotl b a = dotl a b := by
  unfold dotl
  rw [← List.zip_swap a b, List.map_map]
  simp only [Function.comp_def]
  simp [mul_comm]

lemma naAcc_swap (a b : Vec) : naAcc b a = nbAcc a b := by
  unfold naAcc nbAcc
  rw [← List.zip_swap a b, List.map_map]
  simp [Function.comp_def]

lemma nbAcc_swap (a b : Vec) : nbAcc b a = naAcc a b := by
  unfold naAcc nbAcc
  rw [← List.zip_swap a b, List.map_map]
  simp [Function.comp_def]

lemma sum_map_get (l : List (ℝ × ℝ)) (f : ℝ × ℝ → ℝ) :
    (l.map f).sum = ∑ i : Fin l.length, f (l.get i) := by
  induction l with
  | nil => simp
  | cons p t ih =>
    show f p + (List.map f t).sum = ∑ i : Fin (t.length + 1), f ((p :: t).get i)
    rw [Fin.sum_univ_succ, ih]
    rfl

lemma dotl_le_sqrt (a b : Vec) :
    dotl a b ≤ Real.sqrt (naAcc a b) * Real.sqrt (nbAcc a b) := by
  unfold dotl naAcc nbAcc
  rw [sum_map_get, sum_map_get, sum_map_get]
  simpa [pow_two] using
    Real.sum_mul_le_sqrt_mul_sqrt Finset.univ
      (fun i : Fin (a.zip b).length => ((a.zip b).get i).1)
      (fun i => ((a.zip b).get i).2)

lemma neg_dotl_le_sqrt (a b : Vec) :
    -dotl a b ≤ Real.sqrt (naAcc a b) * Real.sqrt (nbAcc a b) := by
  unfold dotl naAcc nbAcc
  rw [sum_map_get, sum_map_get, sum_map_get]
  have h :=
    Real.sum_mul_le_sqrt_mul_sqrt Finset.univ
      (fun i : Fin (a.zip b).length => -((a.zip b).get i).1)
      (fun i => ((a.zip b).get i).2)
  simpa [neg_sq, pow_two, neg_mul, mul_neg, neg_neg,
    Finset.sum_neg_distrib] using h

/-- The cosine similarity always lies in the closed interval `[-1, 1]`:
either the zero-norm guard fires and the value is `0`, or Cauchy-Schwarz
bounds the quotient. -/
lemma cosine_sim_bounds (a b : Vec) :
    -1 ≤ cosine_sim a b ∧ cosine_sim a b ≤ 1 := by
  rw [cosine_sim_eq]
  by_cases h : naAcc a b = 0 ∨ nbAcc a b = 0
  · rw [if_pos h]
    norm_num
  · rw [if_neg h]
    push_neg at h
    obtain ⟨ha, hb⟩ := h
    have hna : 0 < naAcc a b := lt_of_le_of_ne (naAcc_nonneg a b) (Ne.symm ha)
    have hnb : 0 < nbAcc a b := lt_of_le_of_ne (nbAcc_nonneg a b) (Ne.symm hb)
    have hd : 0 < Real.sqrt (naAcc a b) * Real.sqrt (nbAcc a b) :=
      mul_pos (Real.sqrt_pos.2 hna) (Real.sqrt_pos.2 hnb)
    constructor
    · rw [le_div_iff₀ hd]
      have hneg := neg_dotl_le_sqrt a b
      linarith
    · rw [div_le_one hd]
      exact dotl_le_sqrt a b

/- ### Claim theorems about the similarity scorer -/

/-- C2: if either input vector has squared norm exactly zero, `cosine_sim`
returns exactly `0` (the guard `na == 0.0 || nb == 0.0` fires before any
division, so no NaN or infinity can arise from a zero denominator). -/
theorem cosine_sim_zero_norm (a b : Vec)
    (h : normSq a = 0 ∨ normSq b = 0) : cosine_sim a b = 0 := by
  rw [cosine_sim_eq, if_pos]
  rcases h with h | h
  · exact Or.inl (le_antisymm (h ▸ naAcc_le_normSq a b) (naAcc_nonneg a b))
  · exact Or.inr (le_antisymm (h ▸ nbAcc_le_normSq a b) (nbAcc_nonneg a b))

/-- Witness for C2 at the concrete pair `[0, 0]`, `[3, 4]`. -/
theorem cosine_sim_zero_norm_witness :
    (normSq [(0 : ℝ), 0] = 0 ∨ normSq [(3 : ℝ), 4] = 0) ∧
      cosine_sim [(0 : ℝ), 0] [(3 : ℝ), 4] = 0 :=
  ⟨Or.inl (by norm_num [normSq]),
   cosine_sim_zero_norm _ _ (Or.inl (by norm_num [normSq]))⟩

/-- C3: for equal-length vectors of non-zero norm, `cosine_sim` equals the
textbook formula `dot(a,b) / (‖a‖ * ‖b‖)`, where `dotl` and `normSq` are
independent single-purpose passes; the source computes all three sums in one
fold (`foldl_simStep`). -/
theorem cosine_sim_formula (a b : Vec) (hlen : a.length = b.length)
    (ha : normSq a ≠ 0) (hb : normSq b ≠ 0) :
    cosine_sim a b =
      dotl a b / (Real.sqrt (normSq a) * Real.sqrt (normSq b)) := by
  rw [cosine_sim_eq, naAcc_eq_normSq a b hlen, nbAcc_eq_normSq a b hlen,
    if_neg]
  push_neg
  exact ⟨ha, hb⟩

/-- Witness for C3 at the concrete pair `[1, 2]`, `[3, 4]`. -/
theorem cosine_sim_formula_witness :
    ([(1 : ℝ), 2].length = [(3 : ℝ), 4].length) ∧
      normSq [(1 : ℝ), 2] ≠ 0 ∧ normSq [(3 : ℝ), 4] ≠ 0 ∧
      cosine_sim [(1 : ℝ), 2] [(3 : ℝ), 4] =
        dotl [(1 : ℝ), 2] [(3 : ℝ), 4] /
          (Real.sqrt (normSq [(1 : ℝ), 2]) * Real.sqrt (normSq [(3 : ℝ), 4])) :=
  ⟨rfl, by norm_num [normSq], by norm_num [normSq],
   cosine_sim_formula _ _ rfl (by norm_num [normSq]) (by norm_num [normSq])⟩

/-- C7: `cosine_sim` is symmetric in its two arguments, for all pairs of
vectors (lengths need not agree): `zip` pairs the same elements either way,
multiplication commutes, and the zero-norm guard is symmetric. -/
theorem cosine_sim_symm (a b : Vec) : cosine_sim a b = cosine_sim b a := by
  rw [cosine_sim_eq a b, cosine_sim_eq b a, dotl_comm a b, naAcc_swap a b,
    nbAcc_swap a b]
  by_cases h : naAcc a b = 0 ∨ nbAcc a b = 0
  · rw [if_pos h, if_pos (Or.symm h)]
  · rw [if_neg h, if_neg fun hc => h (Or.symm hc),
      mul_comm (Real.sqrt (nbAcc a b))]

/-- C8: under the claim's hypotheses (equal lengths, both norms non-zero),
the value of `cosine_sim` lies in `[-1, 1]`.  (The bound in fact holds
unconditionally, by `cosine_sim_bounds`.) -/
theorem cosine_sim_range (a b : Vec) (_hlen : a.length = b.length)
    (_ha : normSq a ≠ 0) (_hb : normSq b ≠ 0) :
    -1 ≤ cosine_sim a b ∧ cosine_sim a b ≤ 1 :=
  cosine_sim_bounds a b

/-- Witness for C8 at the concrete pair `[1, 2]`, `[3, 4]`. -/
theorem cosine_sim_range_witness :
    ([(1 : ℝ), 2].length = [(3 : ℝ), 4].length) ∧
      normSq [(1 : ℝ), 2] ≠ 0 ∧ normSq [(3 : ℝ), 4] ≠ 0 ∧
      (-1 ≤ cosine_sim [(1 : ℝ), 2] [(3 : ℝ), 4] ∧
        cosine_sim [(1 : ℝ), 2] [(3 : ℝ), 4] ≤ 1) :=
  ⟨rfl, by norm_num [normSq], by norm_num [normSq],
   cosine_sim_range _ _ rfl (by norm_num [normSq]) (by norm_num [normSq])⟩

/-- C10: `cosine_sim` is a total function on arbitrary pairs of vectors (the
embedding of the Rust function never panics and raises no ShapeError), and its
value depends only on the first `min (len a) (len b)` paired elements: the
trailing elements of the longer slice are silently ignored, because
`a.iter().zip(b.iter())` truncates to the shorter slice. -/
theorem cosine_sim_truncation (a b : Vec) :
    cosine_sim a b =
      cosine_sim (a.take (min a.length b.length))
        (b.take (min a.length b.length)) := by
  have hz : (a.take (min a.length b.length)).zip
      (b.take (min a.length b.length)) = a.zip b := by
    rw [List.zip_eq_zipWith, List.zip_eq_zipWith, ← List.take_zipWith]
    exact List.take_of_length_le (by simp [List.length_zipWith])
  unfold cosine_sim
  rw [hz]

/- ### Claim theorems about the pipeline orchestrator -/

/-- C5: for non-cache-only invocations the orchestrator selects the local
load exactly when the cache directory exists, the remote fetch exactly when
it does not and the `hf-hub` capability is enabled, and otherwise fails fast
with the error message naming the expected cache path. -/
theorem model_acquisition_policy (args : Args) (env : Env)
    (h : args.cache_only = false) :
    (env.cacheExists = true →
      (real_main args env).loadedLocal = true ∧
      (real_main args env).fetchedRemote = false) ∧
    (env.cacheExists = false →
      (real_main args env).loadedLocal = false) ∧
    (env.cacheExists = false → env.hfHub = true →
      (real_main args env).fetchedRemote = true) ∧
    (env.cacheExists = false → env.hfHub = false →
      (real_main args env).outcome =
        .failure
          ("No cache found and hf-hub is disabled. Please provide the cache directory (e.g. `qwen3_local_cache`) or run with --cache-dir to point to an existing cache: "
            ++ cacheDirOf args) ∧
      (real_main args env).loadedLocal = false ∧
      (real_main args env).fetchedRemote = false) := by
  cases hll : env.localLoad <;> cases hhf : env.hfFetch <;>
    cases hce : env.cacheExists <;> cases hhh : env.hfHub <;>
      simp [real_main, acquire, h, hce, hhh, hll, hhf]

/-- Witness for C5: a non-cache-only invocation against a present cache. -/
theorem model_acquisition_policy_witness :
    argsFull.cache_only = false ∧
      ((real_main argsFull (envWith true false (.ok okModel) (.error "off"))).loadedLocal = true ∧
        (real_main argsFull (envWith true false (.ok okModel) (.error "off"))).fetchedRemote = false) :=
  ⟨rfl,
   (model_acquisition_policy argsFull
     (envWith true false (.ok okModel) (.error "off")) rfl).1 rfl⟩

/-- C4 counterexample: cache-only mode with no cache present and the
`hf-hub` capability enabled does NOT always exit successfully — when the
remote fetch itself fails, its error is propagated and the exit is non-zero.
The claim's second case asserts unconditional success there. -/
theorem cache_only_fetch_failure :
    argsCacheOnly.cache_only = true ∧
    (envWith false true (.error "x") (.error "connection failed")).cacheExists
      = false ∧
    (envWith false true (.error "x") (.error "connection failed")).hfHub
      = true ∧
    (real_main argsCacheOnly
        (envWith false true (.error "x") (.error "connection failed"))).outcome
      = .failure "connection failed" ∧
    (real_main argsCacheOnly
        (envWith false true (.error "x") (.error "connection failed"))).outcome.isSuccess
      = false :=
  ⟨rfl, rfl, rfl, rfl, rfl⟩

/-- C4 (amended): in cache-only mode, (1) an existing cache exits
successfully at once with no inference, no model load and no cache
modification; (2) with no cache, `hf-hub` enabled and a SUCCEEDING remote
fetch, the cache is populated and the run exits successfully without
inference (a failing fetch propagates its error instead); (3) with no cache
and `hf-hub` disabled, the run fails with the configuration error naming the
missing capability. -/
theorem cache_only_behavior (args : Args) (env : Env)
    (h : args.cache_only = true) :
    (env.cacheExists = true →
      real_main args env =
        { outcome := .success none, loadedLocal := false,
          fetchedRemote := false, ranInference := false,
          cacheModified := false, embedBatch := none }) ∧
    (env.cacheExists = false → env.hfHub = true →
      ∀ m, env.hfFetch = .ok m →
        (real_main args env).outcome = .success none ∧
        (real_main args env).ranInference = false ∧
        (real_main args env).fetchedRemote = true) ∧
    (env.cacheExists = false → env.hfHub = true →
      ∀ e, env.hfFetch = .error e →
        (real_main args env).outcome = .failure e) ∧
    (env.cacheExists = false → env.hfHub = false →
      (real_main args env).outcome =
        .failure
          "--cache-only requested but hf-hub feature is disabled; cannot populate cache in this build. Use --cache-dir to point to a cache directory." ∧
      (real_main args env).ranInference = false) := by
  cases hhf : env.hfFetch <;>
    cases hce : env.cacheExists <;> cases hhh : env.hfHub <;>
      simp [real_main, h, hce, hhh, hhf]

/-- Witness for C4 (amended): cache-only mode against a present cache. -/
theorem cache_only_behavior_witness :
    argsCacheOnly.cache_only = true ∧
      real_main argsCacheOnly (envWith true true (.ok okModel) (.ok okModel)) =
        { outcome := .success none, loadedLocal := false,
          fetchedRemote := false, ranInference := false,
          cacheModified := false, embedBatch := none } :=
  ⟨rfl,
   (cache_only_behavior argsCacheOnly
     (envWith true true (.ok okModel) (.ok okModel)) rfl).1 rfl⟩

/-- C1 counterexample: an invocation with the document absent (cache
present, local load succeeding) fails with the MissingInputError-class
message, but only AFTER the model-acquisition step has run: `loadedLocal`
is `true`, refuting "performs no model load". -/
theorem missing_document_still_loads_model :
    argsNoDoc.cache_only = false ∧ argsNoDoc.document = none ∧
    (real_main argsNoDoc (envWith true false (.ok okModel) (.error "off"))).outcome
      = .failure "--document is required" ∧
    (real_main argsNoDoc (envWith true false (.ok okModel) (.error "off"))).loadedLocal
      = true :=
  ⟨rfl, rfl, rfl, rfl⟩

/-- C1 (amended): a non-cache-only invocation with the document input absent
fails with the MissingInputError-class message `--document is required` and
performs no inference, but the model-acquisition step IS executed first
(here: whenever acquisition succeeds; a failing acquisition reports its own
error instead). -/
theorem missing_document_behavior (args : Args) (env : Env)
    (m : Qwen3Model) (ll fr : Bool)
    (h : args.cache_only = false) (hd : args.document = none)
    (hm : acquire args env = (.ok m, ll, fr)) :
    (real_main args env).outcome = .failure "--document is required" ∧
    (real_main args env).ranInference = false ∧
    ((real_main args env).loadedLocal = true ∨
      (real_main args env).fetchedRemote = true) := by
  have hflag : ll = true ∨ fr = true := by
    unfold acquire at hm
    split at hm
    · simp only [Prod.mk.injEq] at hm
      exact Or.inl hm.2.1.symm
    · split at hm
      · simp only [Prod.mk.injEq] at hm
        exact Or.inr hm.2.2.symm
      · simp at hm
  refine ⟨?_, ?_, ?_⟩ <;> simp [real_main, h, hm, finishRun, hd]
  exact hflag

/-- Witness for C1 (amended): document absent, cache present, load ok. -/
theorem missing_document_behavior_witness :
    argsNoDoc.cache_only = false ∧ argsNoDoc.document = none ∧
      acquire argsNoDoc (envWith true false (.ok okModel) (.error "off")) =
        (.ok okModel, true, false) ∧
      ((real_main argsNoDoc (envWith true false (.ok okModel) (.error "off"))).outcome
          = .failure "--document is required" ∧
        (real_main argsNoDoc (envWith true false (.ok okModel) (.error "off"))).ranInference
          = false ∧
        ((real_main argsNoDoc (envWith true false (.ok okModel) (.error "off"))).loadedLocal
            = true ∨
          (real_main argsNoDoc (envWith true false (.ok okModel) (.error "off"))).fetchedRemote
            = true)) :=
  ⟨rfl, rfl, rfl,
   missing_document_behavior argsNoDoc
     (envWith true false (.ok okModel) (.error "off")) okModel true false
     rfl rfl rfl⟩

/-- C6: when a run reaches the embedding phase with query `q` and document
`d`, the batch handed to the Embedding Engine is exactly the two strings
`"query: " ++ q` and `"passage: " ++ d` in that order, and the reported
score is the cosine similarity of the first (query-role) and second
(passage-role) returned embeddings. -/
theorem embed_batch_and_score (args : Args) (env : Env) (q d : String)
    (m : Qwen3Model) (ll fr : Bool) (e0 e1 : Vec) (rest : List Vec)
    (h : args.cache_only = false) (hq : args.query = some q)
    (hd : args.document = some d)
    (hm : acquire args env = (.ok m, ll, fr))
    (he : m.embed ["query: " ++ q, "passage: " ++ d] = .ok (e0 :: e1 :: rest)) :
    (real_main args env).embedBatch =
      some ["query: " ++ q, "passage: " ++ d] ∧
    (real_main args env).score = some (cosine_sim e0 e1) := by
  constructor <;>
    simp [real_main, RunResult.score, h, hm, finishRun, hd, hq, he]

/-- Witness for C6: the spec's end-to-end scenario texts against a model
returning two unit embeddings. -/
theorem embed_batch_and_score_witness :
    argsFull.cache_only = false ∧
      argsFull.query = some "Where is the cat?" ∧
      argsFull.document = some "The cat sat on the mat." ∧
      ((real_main argsFull (envWith true true (.ok okModel) (.ok okModel))).embedBatch
          = some ["query: " ++ "Where is the cat?",
                  "passage: " ++ "The cat sat on the mat."] ∧
        (real_main argsFull (envWith true true (.ok okModel) (.ok okModel))).score
          = some (cosine_sim [1] [1])) :=
  ⟨rfl, rfl, rfl,
   embed_batch_and_score argsFull
     (envWith true true (.ok okModel) (.ok okModel))
     "Where is the cat?" "The cat sat on the mat." okModel true false
     [1] [1] [] rfl rfl rfl rfl rfl⟩

lemma div_add_div_le (a b k : ℕ) (hk : 0 < k) : a / k + b / k ≤ (a + b) / k := by
  rw [Nat.le_div_iff_mul_le hk]
  calc (a / k + b / k) * k = a / k * k + b / k * k := add_mul _ _ _
    _ ≤ a + b := add_le_add (Nat.div_mul_le_self a k) (Nat.div_mul_le_self b k)

/-- In a run that printed a result, the four reported durations are the four
phase spans of the environment's clock. -/
lemma success_timings (args : Args) (env : Env) (out : OutJson)
    (h : (real_main args env).outcome = .success (some out)) :
    out.timings =
      { model_load := as_millis_u64 (env.c3 - env.c2),
        embed := as_millis_u64 (env.c5 - env.c4),
        similarity := as_millis_u64 (env.c7 - env.c6),
        total := as_millis_u64 (env.c8 - env.c1) } := by
  cases hco : args.cache_only with
  | true =>
    cases hce : env.cacheExists with
    | true => simp [real_main, hco, hce] at h
    | false =>
      cases hhh : env.hfHub with
      | true =>
        cases hhf : env.hfFetch with
        | ok m => simp [real_main, hco, hce, hhh, hhf] at h
        | error e => simp [real_main, hco, hce, hhh, hhf] at h
      | false => simp [real_main, hco, hce, hhh] at h
  | false =>
    rcases hacq : acquire args env with ⟨res, ll, fr⟩
    cases res with
    | error e => simp [real_main, hco, hacq] at h
    | ok m =>
      cases hd : args.document with
      | none => simp [real_main, finishRun, hco, hacq, hd] at h
      | some d =>
        cases hq : args.query with
        | none => simp [real_main, finishRun, hco, hacq, hd, hq] at h
        | some q =>
          cases hemb : m.embed ["query: " ++ q, "passage: " ++ d] with
          | error e =>
            simp [real_main, finishRun, hco, hacq, hd, hq, hemb] at h
          | ok es =>
            cases es with
            | nil => simp [real_main, finishRun, hco, hacq, hd, hq, hemb] at h
            | cons e0 es1 =>
              cases es1 with
              | nil =>
                simp [real_main, finishRun, hco, hacq, hd, hq, hemb] at h
              | cons e1 rest =>
                simp [real_main, finishRun, hco, hacq, hd, hq, hemb] at h
                simp [← h]

/-- C9: in every successful run that printed a result, with the monotone
wall clock the Rust `Instant` guarantees (readings non-decreasing in program
order) and the u64 cast not overflowing, the independently measured `total`
dominates the sum of the three phase durations, hence each phase.  All four
durations are whole-millisecond naturals by construction
(`as_millis_u64`). -/
theorem timings_total_dominates (args : Args) (env : Env) (out : OutJson)
    (h12 : env.c1 ≤ env.c2) (h23 : env.c2 ≤ env.c3) (h34 : env.c3 ≤ env.c4)
    (h45 : env.c4 ≤ env.c5) (h56 : env.c5 ≤ env.c6) (h67 : env.c6 ≤ env.c7)
    (h78 : env.c7 ≤ env.c8)
    (hbound : (env.c8 - env.c1) / 1000000 < 2 ^ 64)
    (h : (real_main args env).outcome = .success (some out)) :
    out.timings.model_load + out.timings.embed + out.timings.similarity ≤
        out.timings.total ∧
    out.timings.model_load ≤ out.timings.total ∧
    out.timings.embed ≤ out.timings.total ∧
    out.timings.similarity ≤ out.timings.total := by
  rw [success_timings args env out h]
  dsimp only
  unfold as_millis_u64
  have hm1 : (env.c3 - env.c2) / 1000000 ≤ (env.c8 - env.c1) / 1000000 :=
    Nat.div_le_div_right (by omega)
  have hm2 : (env.c5 - env.c4) / 1000000 ≤ (env.c8 - env.c1) / 1000000 :=
    Nat.div_le_div_right (by omega)
  have hm3 : (env.c7 - env.c6) / 1000000 ≤ (env.c8 - env.c1) / 1000000 :=
    Nat.div_le_div_right (by omega)
  have hsum : (env.c3 - env.c2) / 1000000 + (env.c5 - env.c4) / 1000000 +
      (env.c7 - env.c6) / 1000000 ≤ (env.c8 - env.c1) / 1000000 := by
    calc (env.c3 - env.c2) / 1000000 + (env.c5 - env.c4) / 1000000 +
          (env.c7 - env.c6) / 1000000
        ≤ ((env.c3 - env.c2) + (env.c5 - env.c4)) / 1000000 +
            (env.c7 - env.c6) / 1000000 :=
          add_le_add_right (div_add_div_le _ _ _ (by norm_num)) _
      _ ≤ ((env.c3 - env.c2) + (env.c5 - env.c4) + (env.c7 - env.c6)) /
            1000000 := div_add_div_le _ _ _ (by norm_num)
      _ ≤ (env.c8 - env.c1) / 1000000 := Nat.div_le_div_right (by omega)
  rw [Nat.mod_eq_of_lt (lt_of_le_of_lt hm1 hbound),
    Nat.mod_eq_of_lt (lt_of_le_of_lt hm2 hbound),
    Nat.mod_eq_of_lt (lt_of_le_of_lt hm3 hbound), Nat.mod_eq_of_lt hbound]
  exact ⟨hsum, hm1, hm2, hm3⟩

/-- The concrete environment for the C9 witness. -/
def envW9 : Env := envWith true true (.ok okModel) (.ok okModel)

/-- The concrete printed result of the C9 witness run: clock spans of 2, 5,
2 and 20 milliseconds. -/
noncomputable def outW9 : OutJson :=
  { cosine_similarity := cosine_sim [1] [1],
    timings := { model_load := 2, embed := 5, similarity := 2, total := 20 } }

/-- Witness for C9: a concrete successful run with monotone clock readings. -/
theorem timings_total_dominates_witness :
    (envW9.c1 ≤ envW9.c2 ∧ envW9.c2 ≤ envW9.c3 ∧ envW9.c3 ≤ envW9.c4 ∧
      envW9.c4 ≤ envW9.c5 ∧ envW9.c5 ≤ envW9.c6 ∧ envW9.c6 ≤ envW9.c7 ∧
      envW9.c7 ≤ envW9.c8) ∧
    ((envW9.c8 - envW9.c1) / 1000000 < 2 ^ 64) ∧
    (real_main argsFull envW9).outcome = .success (some outW9) ∧
    (outW9.timings.model_load + outW9.timings.embed +
        outW9.timings.similarity ≤ outW9.timings.total ∧
      outW9.timings.model_load ≤ outW9.timings.total ∧
      outW9.timings.embed ≤ outW9.timings.total ∧
      outW9.timings.similarity ≤ outW9.timings.total) :=
  ⟨⟨by decide, by decide, by decide, by decide, by decide, by decide,
    by decide⟩, by decide, rfl,
   timings_total_dominates argsFull envW9 outW9 (by decide) (by decide)
     (by decide) (by decide) (by decide) (by decide) (by decide) (by decide)
     rfl⟩

end Qwen3Embed
